import Mathlib

/-!
Shallow embedding of the mdlschm package: a compiler from an annotated Go
model struct to a terraform-plugin-framework schema.  Pure functions of the
Go source are translated one-for-one into Lean functions; Go panics are
modelled as `Except.error` carrying the panic message; Go `nil` slices are
modelled as `[]`.  Go's `regexp.ReplaceAllString` calls (used only with two
fixed patterns) are modelled by character-list scanners implementing the
leftmost-first, greedy semantics of those concrete patterns, and the
`for true { ... }` rewrite loops are modelled by a fuelled iteration: each
changing pass removes at least one separator character, so fuel
`length + 1` always reaches the fixed point the Go loop reaches.
-/

namespace Mdlschm

/-! ## Tag-key and tag-value constants (from the `const` block of mdlschm.go) -/

def TagComputed : String := "computed"
def TagOptional : String := "optional"
def TagRequired : String := "required"
def TagSensitive : String := "sensitive"
def TagDeprecationMessage : String := "deprecation"
def TagDescription : String := "desc"
def TagMarkdownDescription : String := "md"
def TagPlanModifiers : String := "pmods"
def TagSnakeName : String := "snake"
def TagValidators : String := "valid"
def TagVersion : String := "version"
def TagCollection : String := "collection"

def TagCollectionList : String := "list"
def TagCollectionSet : String := "set"
def TagTrue : String := "true"

def TagPlanModifierReplace : String := "replace"
def TagPlanModifierDefault : String := "default"
def TagPlanModifierUSFU : String := "usfu"

def TagValidatorBetween : String := "between"
def TagValidatorOneOf : String := "oneof"
def TagValidatorNoneOf : String := "noneof"

def SpecialTypeBlock : String := "block"

/-! ## Generic character-list helpers (models of the `strings` stdlib calls) -/

/-- ASCII lowercase letter test (the `[a-z]` character class). -/
def isLowerA (c : Char) : Bool := 'a' ≤ c && c ≤ 'z'

/-- ASCII uppercase letter test (the `[A-Z]` character class). -/
def isUpperA (c : Char) : Bool := 'A' ≤ c && c ≤ 'Z'

/-- ASCII decimal digit test. -/
def isDigitA (c : Char) : Bool := '0' ≤ c && c ≤ '9'

/-- ASCII lowering of one character (model of `strings.ToLower` on the
ASCII identifiers this package processes). -/
def asciiLower (c : Char) : Char :=
  if isUpperA c then Char.ofNat (c.toNat + 32) else c

/-- Model of `strings.Split` with a one-character separator: splits at every
occurrence of `sep`, keeping empty fields, never returning an empty list. -/
def splitOnChar (sep : Char) : List Char → List (List Char)
  | [] => [[]]
  | c :: rest =>
    match splitOnChar sep rest with
    | [] => [[]]
    | p :: ps => if c = sep then [] :: p :: ps else (c :: p) :: ps

/-- Break a list at the first occurrence of `c`: returns the part strictly
before it and the part strictly after it, or `none` when `c` is absent. -/
def breakAtFirst (c : Char) : List Char → Option (List Char × List Char)
  | [] => none
  | x :: rest =>
    if x = c then some ([], rest)
    else
      match breakAtFirst c rest with
      | some (pre, post) => some (x :: pre, post)
      | none => none

/-- Model of `strings.HasPrefix`. -/
def hasPfx (p s : List Char) : Bool := List.isPrefixOf p s

/-- Model of `strings.TrimPrefix` (removes at most one copy of the prefix). -/
def trimPfx (p s : List Char) : List Char :=
  if hasPfx p s then s.drop p.length else s

/-- Model of `strings.TrimSuffix` (removes at most one copy of the suffix). -/
def trimSfx (p s : List Char) : List Char :=
  (trimPfx p.reverse s.reverse).reverse

/-- The five-pipe private sentinel `|||||` the Go code substitutes for a
protected separator character. -/
def sentinel : List Char := ['|', '|', '|', '|', '|']

/-- Replace the first occurrence of `c` in the list by the sentinel. -/
def replFirstWithSentinel (c : Char) : List Char → List Char
  | [] => []
  | x :: rest =>
    if x = c then sentinel ++ rest else x :: replFirstWithSentinel c rest

/-- Replace the last occurrence of `c` in the list by the sentinel
(the sentinel consists of a single repeated character, so it is its own
reversal). -/
def replLastWithSentinel (c : Char) (l : List Char) : List Char :=
  (replFirstWithSentinel c l.reverse).reverse

/-- Model of `strings.Replace(v, "|||||", x, -1)`: restore every
(non-overlapping, leftmost-first) sentinel occurrence to character `x`. -/
def restoreSentinel (x : Char) : List Char → List Char
  | '|' :: '|' :: '|' :: '|' :: '|' :: rest => x :: restoreSentinel x rest
  | c :: rest => c :: restoreSentinel x rest
  | [] => []

/-- Run `f` repeatedly until it makes no further change, with enough fuel;
model of the Go `for true { newResult := re.ReplaceAllString(result, ...);
if newResult != result { result = newResult } else { break } }` loop.  Each
changing pass of the two patterns used in this package strictly decreases
the count of the separator character, so fuel `length + 1` suffices. -/
def fixLoop (f : List Char → List Char) : Nat → List Char → List Char
  | 0, s => s
  | n + 1, s =>
    let s2 := f s
    if s2 = s then s else fixLoop f n s2

/-! ## splitTagValues: one pass of `(\([^\)]*),([^\)]*\))` → `$1|||||$2`

A match begins at a `(`; the closing `)` of the match is the first `)`
after it (both `[^\)]*` groups exclude `)`); the match exists iff a comma
occurs in between; the first group is greedy, so the comma consumed by the
pattern is the last comma before that `)`.  `ReplaceAllString` takes
non-overlapping leftmost matches and continues after each match. -/

/-- Try a match of the value pattern starting right after a `(`:
on success return the rewritten span (up to and including the `)`) and the
rest of the input. -/
def svTry (rest : List Char) : Option (List Char × List Char) :=
  match breakAtFirst ')' rest with
  | none => none
  | some (pre, post) =>
    if pre.contains ',' then some (replLastWithSentinel ',' pre ++ [')'], post)
    else none

/-- One `ReplaceAllString` pass of the parenthesis-comma pattern, with
structural fuel: every recursive call strictly shrinks the list, so fuel
equal to the list length (as supplied by `svPass`) is never exhausted. -/
def svPassF : Nat → List Char → List Char
  | _, [] => []
  | 0, l => l
  | fuel + 1, c :: rest =>
    if c = '(' then
      match svTry rest with
      | some (span, after) => '(' :: span ++ svPassF fuel after
      | none => c :: svPassF fuel rest
    else c :: svPassF fuel rest

/-- One `ReplaceAllString` pass of the parenthesis-comma pattern. -/
def svPass (l : List Char) : List Char := svPassF l.length l

/-- `splitTagValues` of mdlschm.go: splits a single tag's value on
top-level commas, protecting commas inside a matched `(...)` group via the
iterated sentinel rewrite, then splitting on the remaining commas and
restoring the sentinels. -/
def splitTagValues (s : String) : List String :=
  let result := fixLoop svPass (s.data.length + 1) s.data
  (splitOnChar ',' result).map fun v => String.mk (restoreSentinel ',' v)

/-! ## splitTags: one pass of `(:"[^"]*) ([^"]*")` → `$1|||||$2`

A match begins at `:"`; the closing `"` is the first `"` after the opening
one; the match exists iff a space occurs in between; greediness makes the
consumed space the last space before that `"`. -/

/-- Try a match of the tag pattern starting right after a `:"`. -/
def stTry (rest : List Char) : Option (List Char × List Char) :=
  match breakAtFirst '"' rest with
  | none => none
  | some (pre, post) =>
    if pre.contains ' ' then some (replLastWithSentinel ' ' pre ++ ['"'], post)
    else none

/-- One `ReplaceAllString` pass of the quoted-value pattern, with
structural fuel (same adequacy argument as `svPassF`). -/
def stPassF : Nat → List Char → List Char
  | _, [] => []
  | 0, l => l
  | fuel + 1, ':' :: '"' :: rest =>
    (match stTry rest with
     | some (span, after) => ':' :: '"' :: span ++ stPassF fuel after
     | none => ':' :: stPassF fuel ('"' :: rest))
  | fuel + 1, c :: rest => c :: stPassF fuel rest

/-- One `ReplaceAllString` pass of the quoted-value pattern. -/
def stPass (l : List Char) : List Char := stPassF l.length l

/-- `splitTags` of mdlschm.go: splits a raw struct-tag string on the spaces
that are not inside a quoted value, via the iterated sentinel rewrite. -/
def splitTags (s : String) : List String :=
  let result := fixLoop stPass (s.data.length + 1) s.data
  (splitOnChar ' ' result).map fun v => String.mk (restoreSentinel ' ' v)

/-! ## tagValue, hasTagArg, tagArgs -/

/-- `tagValue` of mdlschm.go: the unquoted value of tag `key`, or `""` when
absent; tokens that do not split on `:` into exactly two parts are
skipped. -/
def tagValue (key : String) (allTags : String) : String :=
  let tags := splitTags allTags
  go tags
where
  go : List String → String
    | [] => ""
    | tag :: rest =>
      let parts := (splitOnChar ':' tag.data).map String.mk
      if h : parts.length = 2 then
        if parts[0] = key then
          String.mk (trimPfx ['"'] (trimSfx ['"'] (parts[1]).data))
        else go rest
      else go rest

/-- `hasTagArg` of mdlschm.go: does the (comma-split) tag value contain a
bare term `needle` or a term beginning with `needle(`. -/
def hasTagArg (needle haystack : String) : Bool :=
  (splitTagValues haystack).any fun check =>
    check = needle || hasPfx (needle ++ "(").data check.data

/-- `tagArgs` of mdlschm.go: the text strictly between `needle(` and the
final `)` of the first matching term, or `""`. -/
def tagArgs (needle haystack : String) : String :=
  go (splitTagValues haystack)
where
  go : List String → String
    | [] => ""
    | check :: rest =>
      if hasPfx (needle ++ "(").data check.data then
        String.mk (trimPfx (needle ++ "(").data (trimSfx [')'] check.data))
      else go rest

/-! ## snakeCase

Models the two regex rewrites of `snakeCase`:
`([a-z])([A-Z]{2,})` → `$1_$2` inserts `_` after a lowercase letter that is
followed by at least two uppercase letters, and `([A-Z][a-z])` → `_$1`
inserts `_` before an uppercase letter followed by a lowercase one; for
both patterns non-overlapping leftmost scanning coincides with the simple
left-to-right scan below, because no new match can begin inside a consumed
span. -/

/-- Model of `strings.Replace(camel, "IDs", "Ids", -1)`. -/
def replaceIDs : List Char → List Char
  | 'I' :: 'D' :: 's' :: rest => 'I' :: 'd' :: 's' :: replaceIDs rest
  | c :: rest => c :: replaceIDs rest
  | [] => []

/-- One rewrite of `([a-z])([A-Z]{2,})` → `$1_$2` over the whole string. -/
def underscoreBeforeAcronym : List Char → List Char
  | a :: b :: c :: rest =>
    if isLowerA a && isUpperA b && isUpperA c then
      a :: '_' :: underscoreBeforeAcronym (b :: c :: rest)
    else a :: underscoreBeforeAcronym (b :: c :: rest)
  | l => l

/-- One rewrite of `([A-Z][a-z])` → `_$1` over the whole string. -/
def underscoreBeforeWord : List Char → List Char
  | a :: b :: rest =>
    if isUpperA a && isLowerA b then
      '_' :: a :: underscoreBeforeWord (b :: rest)
    else a :: underscoreBeforeWord (b :: rest)
  | l => l

/-- Drop a single leading underscore (model of
`strings.TrimPrefix(s, "_")`). -/
def trimUnderscoreStart : List Char → List Char
  | '_' :: rest => rest
  | l => l

/-- `snakeCase` of mdlschm.go: explicit `snake` tag wins verbatim;
otherwise preclean `IDs`→`Ids`, run the two underscore-inserting rewrites,
lowercase, and trim one leading underscore. -/
def snakeCase (camel : String) (allTags : String) : String :=
  let snakeName := tagValue TagSnakeName allTags
  if snakeName ≠ "" then snakeName
  else
    let c1 := replaceIDs camel.data
    let c2 := underscoreBeforeAcronym c1
    let c3 := underscoreBeforeWord c2
    String.mk (trimUnderscoreStart (c3.map asciiLower))

/-! ## Models of the strconv / math-big parsing collaborators

`strconv.ParseBool` is modelled exactly.  `strconv.ParseFloat(s, 64)` and
`big.Float.Parse(s, 10)` are modelled as exact rational parsers of the
decimal-literal syntax (optional sign, digits with optional fraction,
optional decimal exponent, no surrounding whitespace); the special forms
(inf/NaN, hex floats, digit-group underscores) that the schema compiler
never receives are omitted, and malformed input — including input with
leading or trailing spaces — is a parse error exactly as in Go. -/

/-- Numeric value of a list of ASCII digits. -/
def digitsVal (l : List Char) : ℕ :=
  l.foldl (fun acc c => acc * 10 + (c.toNat - 48)) 0

/-- Model of `strconv.ParseBool`. -/
def parseBool (s : String) : Except String Bool :=
  if s = "1" ∨ s = "t" ∨ s = "T" ∨ s = "true" ∨ s = "TRUE" ∨ s = "True" then
    .ok true
  else if s = "0" ∨ s = "f" ∨ s = "F" ∨ s = "false" ∨ s = "FALSE" ∨ s = "False" then
    .ok false
  else
    .error ("strconv.ParseBool: parsing \"" ++ s ++ "\": invalid syntax")

/-- Model of `strconv.ParseInt(s, 10, 64)`: optional sign, then decimal
digits, with the 64-bit range check. -/
def parseInt10 (s : String) : Except String ℤ :=
  let invalid := "strconv.ParseInt: parsing \"" ++ s ++ "\": invalid syntax"
  let (neg, digits) :=
    match s.data with
    | '-' :: rest => (true, rest)
    | '+' :: rest => (false, rest)
    | l => (false, l)
  if digits = [] ∨ ¬ digits.all isDigitA then .error invalid
  else
    let v : ℤ := if neg then -(digitsVal digits : ℤ) else (digitsVal digits : ℤ)
    if v < -(2 ^ 63) ∨ v > 2 ^ 63 - 1 then
      .error ("strconv.ParseInt: parsing \"" ++ s ++ "\": value out of range")
    else .ok v

/-- Model of `strconv.ParseFloat(s, 64)` on decimal literals, as an exact
rational (the concrete literals the compiler handles are exactly
representable, so no rounding step is modelled). -/
def parseFloatQ (s : String) : Except String ℚ :=
  let invalid := "strconv.ParseFloat: parsing \"" ++ s ++ "\": invalid syntax"
  let (neg, body) :=
    match s.data with
    | '-' :: rest => (true, rest)
    | '+' :: rest => (false, rest)
    | l => (false, l)
  let intDigits := body.takeWhile isDigitA
  let rest1 := body.drop intDigits.length
  let (fracDigits, rest2) :=
    match rest1 with
    | '.' :: r => (r.takeWhile isDigitA, r.drop (r.takeWhile isDigitA).length)
    | r => (([] : List Char), r)
  if intDigits = [] ∧ fracDigits = [] then .error invalid
  else
    let mantNum : ℕ := digitsVal (intDigits ++ fracDigits)
    let fracLen : ℕ := fracDigits.length
    match rest2 with
    | [] =>
      .ok (mkRat (if neg then -(mantNum : ℤ) else (mantNum : ℤ)) (10 ^ fracLen))
    | e :: r =>
      if e = 'e' ∨ e = 'E' then
        let (eneg, er) :=
          match r with
          | '-' :: rr => (true, rr)
          | '+' :: rr => (false, rr)
          | rr => (false, rr)
        let eDigits := er.takeWhile isDigitA
        if eDigits = [] ∨ er.drop eDigits.length ≠ [] then .error invalid
        else
          let ex := digitsVal eDigits
          let num : ℤ := if eneg then (mantNum : ℤ) else (mantNum : ℤ) * 10 ^ ex
          let den : ℕ := if eneg then 10 ^ (fracLen + ex) else 10 ^ fracLen
          .ok (mkRat (if neg then -num else num) den)
      else .error invalid

/-- Model of `big.Float.Parse(s, 10)` on decimal literals (the schema
compiler's `oneof`/`noneof` arguments for `types.Number` fields); the error
text of the external library is represented schematically. -/
def parseNumber10 (s : String) : Except String ℚ :=
  match parseFloatQ s with
  | .ok q => .ok q
  | .error _ => .error ("number has no digits or bad syntax: " ++ s)

/-- Go conversion `int(f)` / `int64(f)` of a float: truncation toward
zero. -/
def ratTrunc (q : ℚ) : ℤ := q.num.tdiv q.den

/-! ## The schema data model (shapes of the external tfsdk types) -/

/-- Scalar element kinds of the tfsdk value types. -/
inductive ElemTy where
  | bool | float64 | int64 | number | str
  deriving DecidableEq, Repr

/-- The attribute value type: a scalar, a string-keyed map of scalars, or
a list/set of scalars (`types.BoolType`, `types.MapType{...}`, ...). -/
inductive AttrTy where
  | prim (e : ElemTy)
  | mapOf (e : ElemTy)
  | listOf (e : ElemTy)
  | setOf (e : ElemTy)
  deriving DecidableEq, Repr

/-- A concrete tfsdk value carried by a DefaultValue plan modifier
(`types.Bool{...}`, `types.Float64{...}`, ...). -/
inductive GoVal where
  | bool (b : Bool)
  | float64 (q : ℚ)
  | int64 (i : ℤ)
  | number (q : ℚ)
  | str (s : String)
  deriving DecidableEq, Repr

/-- A plan modifier descriptor (`resource.RequiresReplace()`,
`resource.UseStateForUnknown()`, `DefaultValue(v)`). -/
inductive ModifierSpec where
  | requiresReplace
  | useStateForUnknown
  | defaultValue (v : GoVal)
  deriving DecidableEq, Repr

/-- A validator descriptor (the list/set/string/float64/int64/number
validator constructors used by mdlschm.go). -/
inductive ValidatorSpec where
  | listSizeBetween (lo hi : ℤ)
  | listSizeAtLeast (lo : ℤ)
  | setSizeBetween (lo hi : ℤ)
  | setSizeAtLeast (lo : ℤ)
  | lengthBetween (lo hi : ℤ)
  | float64Between (lo hi : ℚ)
  | int64Between (lo hi : ℤ)
  | float64OneOf (vs : List ℚ)
  | int64OneOf (vs : List ℤ)
  | numberOneOf (vs : List ℚ)
  | stringOneOf (vs : List String)
  | float64NoneOf (vs : List ℚ)
  | int64NoneOf (vs : List ℤ)
  | numberNoneOf (vs : List ℚ)
  | stringNoneOf (vs : List String)
  deriving DecidableEq, Repr

/-- `tfsdk.Attribute` (the fields mdlschm.go populates); Go zero values
are the defaults, a Go `nil` slice is `[]`. -/
structure Attribute where
  type : AttrTy
  required : Bool := false
  optional : Bool := false
  computed : Bool := false
  sensitive : Bool := false
  description : String := ""
  markdownDescription : String := ""
  deprecationMessage : String := ""
  planModifiers : List ModifierSpec := []
  validators : List ValidatorSpec := []
  deriving DecidableEq, Repr

/-- `tfsdk.Block`; `nestingModeSet = true` models
`tfsdk.BlockNestingModeSet`, `false` models `...List`.  Maps of nested
attributes/blocks are association lists in field order. -/
inductive Block where
  | mk (nestingModeSet : Bool)
       (attributes : List (String × Attribute))
       (blocks : List (String × Block))
       (description : String)
       (markdownDescription : String)
       (deprecationMessage : String)
       (planModifiers : List ModifierSpec)
       (validators : List ValidatorSpec)

def Block.nestingModeSet : Block → Bool
  | .mk v _ _ _ _ _ _ _ => v

def Block.attributes : Block → List (String × Attribute)
  | .mk _ v _ _ _ _ _ _ => v

def Block.blocks : Block → List (String × Block)
  | .mk _ _ v _ _ _ _ _ => v

def Block.validators : Block → List ValidatorSpec
  | .mk _ _ _ _ _ _ _ v => v

/-- `tfsdk.Schema` (the fields mdlschm.go populates). -/
structure Schema where
  attributes : List (String × Attribute) := []
  blocks : List (String × Block) := []
  version : ℤ := 0
  description : String := ""
  markdownDescription : String := ""
  deprecationMessage : String := ""

/-- The `nest` struct of mdlschm.go (only its `schema`, `block` and
`attribute` fields are ever used). -/
structure Nest where
  schema : Option Schema := none
  block : Option Block := none
  attr : Option Attribute := none

/-! ## Leaf type resolver -/

/-- The value-type switch of `leaf` of mdlschm.go (the switch over
`reflect.TypeOf(model).String()`). -/
def leafTy (tyStr : String) (tags : String) : Option AttrTy :=
  if tyStr = "types.Bool" ∨ tyStr = "bool" then some (.prim .bool)
  else if tyStr = "types.Float64" ∨ tyStr = "float" ∨ tyStr = "float64" then
    some (.prim .float64)
  else if tyStr = "types.Int64" ∨ tyStr = "int64" ∨ tyStr = "int" then
    some (.prim .int64)
  else if tyStr = "types.Number" then some (.prim .number)
  else if tyStr = "types.String" ∨ tyStr = "string" then some (.prim .str)
  else if tyStr = "map[string]types.Bool" ∨ tyStr = "map[string]bool" then
    some (.mapOf .bool)
  else if tyStr = "map[string]types.Float64" ∨ tyStr = "map[string]float" ∨
      tyStr = "map[string]float64" then
    some (.mapOf .float64)
  else if tyStr = "map[string]types.Int64" ∨ tyStr = "map[string]int64" ∨
      tyStr = "map[string]int" then
    some (.mapOf .int64)
  else if tyStr = "map[string]types.Number" then some (.mapOf .number)
  else if tyStr = "map[string]types.String" ∨ tyStr = "map[string]string" then
    some (.mapOf .str)
  else if tyStr = "[]types.Bool" ∨ tyStr = "[]bool" then
    some (if tagValue TagCollection tags = TagCollectionSet then .setOf .bool else .listOf .bool)
  else if tyStr = "[]types.Float64" ∨ tyStr = "[]float" ∨ tyStr = "[]float64" then
    some (if tagValue TagCollection tags = TagCollectionSet then .setOf .float64 else .listOf .float64)
  else if tyStr = "[]types.Int64" ∨ tyStr = "[]int64" ∨ tyStr = "[]int" then
    some (if tagValue TagCollection tags = TagCollectionSet then .setOf .int64 else .listOf .int64)
  else if tyStr = "[]types.Number" then
    some (if tagValue TagCollection tags = TagCollectionSet then .setOf .number else .listOf .number)
  else if tyStr = "[]types.String" ∨ tyStr = "[]string" then
    some (if tagValue TagCollection tags = TagCollectionSet then .setOf .str else .listOf .str)
  else none

/-- `leaf` of mdlschm.go: an attribute with only the value type set, or
`none` for a non-leaf type. -/
def leaf (tyStr : String) (tags : String) : Option Attribute :=
  (leafTy tyStr tags).map fun t => { type := t }

/-! ## Plan modifier construction -/

/-- `pMods` of mdlschm.go: checks `replace`, then `usfu`, then
`default(...)` (in that fixed order), appending one modifier for each term
present; a default literal is parsed against the switch over the field's
reflect type string, and a parse failure is a panic (`.error`). -/
def pMods (tagV attrType : String) : Except String (List ModifierSpec) :=
  let pm1 : List ModifierSpec :=
    if hasTagArg TagPlanModifierReplace tagV then [.requiresReplace] else []
  let pm2 : List ModifierSpec :=
    pm1 ++ (if hasTagArg TagPlanModifierUSFU tagV then [.useStateForUnknown] else [])
  if hasTagArg TagPlanModifierDefault tagV then
    let dv := tagArgs TagPlanModifierDefault tagV
    if attrType = "types.Bool" ∨ attrType = "bool" then
      match parseBool dv with
      | .error e => .error ("default value (" ++ dv ++ ") is not a bool: " ++ e)
      | .ok b => .ok (pm2 ++ [.defaultValue (.bool b)])
    else if attrType = "types.Float64" ∨ attrType = "float" ∨ attrType = "float64" then
      match parseFloatQ dv with
      | .error e => .error ("default value (" ++ dv ++ ") is not a number: " ++ e)
      | .ok f => .ok (pm2 ++ [.defaultValue (.float64 f)])
    else if attrType = "types.Int64" ∨ attrType = "int64" then
      match parseInt10 dv with
      | .error e => .error ("default value (" ++ dv ++ ") is not a number: " ++ e)
      | .ok i => .ok (pm2 ++ [.defaultValue (.int64 i)])
    else if attrType = "types.Number" ∨ attrType = "int" then
      match parseFloatQ dv with
      | .error e => .error ("default value (" ++ dv ++ ") is not a number: " ++ e)
      | .ok f => .ok (pm2 ++ [.defaultValue (.number f)])
    else if attrType = "types.String" ∨ attrType = "string" then
      .ok (pm2 ++ [.defaultValue (.str dv)])
    else .ok pm2
  else .ok pm2

/-- The replace/usfu appends of `pMods`: the part of its output that is
independent of the attribute type (the first two `if` statements of the Go
function). -/
def pModsPre (tagV : String) : List ModifierSpec :=
  (if hasTagArg TagPlanModifierReplace tagV then [ModifierSpec.requiresReplace] else []) ++
  (if hasTagArg TagPlanModifierUSFU tagV then [ModifierSpec.useStateForUnknown] else [])

/-! ## Validator construction -/

/-- The slice-and-block type strings of `betweenValidator`'s first switch
case. -/
def sliceTypeStrings : List String :=
  ["[]types.Bool", "[]bool", "[]types.Float64", "[]float", "[]float64",
   "[]types.Int64", "[]int64", "[]int", "[]types.Number",
   "[]types.String", "[]string", SpecialTypeBlock]

/-- `betweenValidator` of mdlschm.go: the `between(min,max)` arguments are
split on commas and parsed with `strconv.ParseFloat` exactly as written
(no whitespace trimming); a wrong argument count or a parse failure is a
panic.  Returns `none` for a type string outside the switch. -/
def betweenValidator (betweenValue attrType tags : String) :
    Except String (Option ValidatorSpec) :=
  let ta := tagArgs TagValidatorBetween betweenValue
  let args := (splitOnChar ',' ta.data).map String.mk
  match args with
  | [a0, a1] =>
    (match parseFloatQ a0 with
     | .error e => .error (TagValidatorBetween ++ " requires 2 numeric args: " ++ e)
     | .ok n0 =>
       match parseFloatQ a1 with
       | .error e => .error (TagValidatorBetween ++ " requires 2 numeric args: " ++ e)
       | .ok n1 =>
         if attrType ∈ sliceTypeStrings then
           if tagValue TagCollection tags = TagCollectionSet then
             .ok (some (.setSizeBetween (ratTrunc n0) (ratTrunc n1)))
           else .ok (some (.listSizeBetween (ratTrunc n0) (ratTrunc n1)))
         else if attrType = "types.ListType" then
           .ok (some (.listSizeBetween (ratTrunc n0) (ratTrunc n1)))
         else if attrType = "types.SetType" then
           .ok (some (.setSizeBetween (ratTrunc n0) (ratTrunc n1)))
         else if attrType = "types.String" ∨ attrType = "string" then
           .ok (some (.lengthBetween (ratTrunc n0) (ratTrunc n1)))
         else if attrType = "types.Float64" ∨ attrType = "float" ∨
             attrType = "float64" ∨ attrType = "types.Number" then
           .ok (some (.float64Between n0 n1))
         else if attrType = "types.Int64" ∨ attrType = "int" ∨ attrType = "int64" then
           .ok (some (.int64Between (ratTrunc n0) (ratTrunc n1)))
         else .ok none)
  | other =>
    .error (TagValidatorBetween ++ " requires 2 numeric args, got " ++ toString other.length)

/-- Parse every argument with `f`, wrapping the first failure's message
with `wrap` (the per-element parse-and-panic loops of
`oneOfValidator`/`noneOfValidator`). -/
def mapParse {α : Type} (f : String → Except String α) (wrap : String → String) :
    List String → Except String (List α)
  | [] => .ok []
  | a :: rest =>
    match f a with
    | .error e => .error (wrap e)
    | .ok n =>
      match mapParse f wrap rest with
      | .error e => .error e
      | .ok ns => .ok (n :: ns)

/-- `oneOfValidator` of mdlschm.go. -/
def oneOfValidator (oneOfValue attrType tags : String) :
    Except String (Option ValidatorSpec) :=
  let _ := tags
  let ta := tagArgs TagValidatorOneOf oneOfValue
  let args := (splitOnChar ',' ta.data).map String.mk
  let wrap := fun e => TagValidatorOneOf ++ " requires numeric args: " ++ e
  if attrType = "types.Float64" ∨ attrType = "float" ∨ attrType = "float64" then
    match mapParse parseFloatQ wrap args with
    | .error e => .error e
    | .ok nums => .ok (some (.float64OneOf nums))
  else if attrType = "types.Int64" ∨ attrType = "int64" ∨ attrType = "int" then
    match mapParse parseInt10 wrap args with
    | .error e => .error e
    | .ok nums => .ok (some (.int64OneOf nums))
  else if attrType = "types.Number" then
    match mapParse parseNumber10 wrap args with
    | .error e => .error e
    | .ok nums => .ok (some (.numberOneOf nums))
  else if attrType = "types.String" ∨ attrType = "string" then
    .ok (some (.stringOneOf args))
  else .ok none

/-- `noneOfValidator` of mdlschm.go. -/
def noneOfValidator (noneOfValue attrType tags : String) :
    Except String (Option ValidatorSpec) :=
  let _ := tags
  let ta := tagArgs TagValidatorNoneOf noneOfValue
  let args := (splitOnChar ',' ta.data).map String.mk
  let wrap := fun e => TagValidatorNoneOf ++ " requires numeric args: " ++ e
  if attrType = "types.Float64" ∨ attrType = "float" ∨ attrType = "float64" then
    match mapParse parseFloatQ wrap args with
    | .error e => .error e
    | .ok nums => .ok (some (.float64NoneOf nums))
  else if attrType = "types.Int64" ∨ attrType = "int64" ∨ attrType = "int" then
    match mapParse parseInt10 wrap args with
    | .error e => .error e
    | .ok nums => .ok (some (.int64NoneOf nums))
  else if attrType = "types.Number" then
    match mapParse parseNumber10 wrap args with
    | .error e => .error e
    | .ok nums => .ok (some (.numberNoneOf nums))
  else if attrType = "types.String" ∨ attrType = "string" then
    .ok (some (.stringNoneOf args))
  else .ok none

/-- `validators` of mdlschm.go: an explicit `between` term first; then,
when no `between` term is present and the target is a block, the implicit
size inference (min 1 when `required:"true"`, else 0; Set family iff
`collection:"set"`; `SizeBetween(min,1)` when not from a slice,
`SizeAtLeast(min)` when from a slice with positive min, nothing when from
a slice with min 0); then `oneof`, then `noneof`.  Go returns `nil` for an
empty result, identified here with `[]`. -/
def validators (tagV attrType : String) (fromSlice : Bool) (tags : String) :
    Except String (List ValidatorSpec) :=
  let btw : Except String (List ValidatorSpec) :=
    if hasTagArg TagValidatorBetween tagV then
      match betweenValidator tagV attrType tags with
      | .error e => .error e
      | .ok (some v) => .ok [v]
      | .ok none => .ok []
    else .ok []
  match btw with
  | .error e => .error e
  | .ok vals0 =>
    let vals1 := vals0 ++
      (if ¬ hasTagArg TagValidatorBetween tagV ∧ attrType = SpecialTypeBlock then
        let lo : ℤ := if tagValue TagRequired tags = TagTrue then 1 else 0
        if tagValue TagCollection tags = TagCollectionSet then
          (if fromSlice ∧ lo > 0 then [ValidatorSpec.setSizeAtLeast lo] else []) ++
          (if ¬ fromSlice then [ValidatorSpec.setSizeBetween lo 1] else [])
        else
          (if fromSlice ∧ lo > 0 then [ValidatorSpec.listSizeAtLeast lo] else []) ++
          (if ¬ fromSlice then [ValidatorSpec.listSizeBetween lo 1] else [])
      else [])
    match (if hasTagArg TagValidatorOneOf tagV then
        oneOfValidator tagV attrType tags else .ok none) with
    | .error e => .error e
    | .ok o =>
      match (if hasTagArg TagValidatorNoneOf tagV then
          noneOfValidator tagV attrType tags else .ok none) with
      | .error e => .error e
      | .ok no => .ok (vals1 ++ o.toList ++ no.toList)

/-! ## Attribute/block decoration -/

/-- The first half of `addAttrOptions` of mdlschm.go: the five sequential
requiredness/sensitivity updates (each Go `if` is one functional
update). -/
def addAttrFlags (a : Attribute) (tags : String) : Attribute :=
  let a := if tagValue TagComputed tags = TagTrue then { a with computed := true } else a
  let a := if tagValue TagOptional tags = TagTrue then { a with optional := true } else a
  let a := if tagValue TagRequired tags = TagTrue then { a with required := true } else a
  let a := if tagValue TagComputed tags = "" ∧ tagValue TagOptional tags = "" ∧
      tagValue TagRequired tags = "" then { a with optional := true } else a
  if tagValue TagSensitive tags = TagTrue then { a with sensitive := true } else a

/-- The description statements of `addAttrOptions` of mdlschm.go
(deprecation, description, markdown description; these never touch the
requiredness flags). -/
def addAttrDocs (a : Attribute) (tags : String) : Attribute :=
  let a := if tagValue TagDeprecationMessage tags ≠ "" then
      { a with deprecationMessage := tagValue TagDeprecationMessage tags } else a
  let a := if tagValue TagDescription tags ≠ "" then
      { a with description := tagValue TagDescription tags } else a
  if tagValue TagMarkdownDescription tags ≠ "" then
    { a with markdownDescription := tagValue TagMarkdownDescription tags } else a

/-- The final two statements of `addAttrOptions` of mdlschm.go: build plan
modifiers when the `pmods` tag is non-empty, then validators when the
`valid` tag is non-empty (each can abort compilation). -/
def addAttrRules (a : Attribute) (tags : String) (attrType : String) :
    Except String Attribute :=
  match (if tagValue TagPlanModifiers tags ≠ "" then
      (match pMods (tagValue TagPlanModifiers tags) attrType with
       | .error e => .error e
       | .ok pm => .ok { a with planModifiers := pm } : Except String Attribute)
    else .ok a) with
  | .error e => .error e
  | .ok a2 =>
    if tagValue TagValidators tags ≠ "" then
      match validators (tagValue TagValidators tags) attrType false tags with
      | .error e => .error e
      | .ok vs => .ok { a2 with validators := vs }
    else .ok a2

/-- `addAttrOptions` of mdlschm.go: the statements of the Go function in
source order (requiredness flags, then descriptions, then plan
modifiers/validators). -/
def addAttrOptions (a : Attribute) (tags : String) (attrType : String) :
    Except String Attribute :=
  addAttrRules (addAttrDocs (addAttrFlags a tags) tags) tags attrType

/-! ## The structural walker -/

/-- The runtime type shape of a Go model value: a named/basic type (with
its `reflect` type string and kind string), a struct with
(name, tag, type) fields, a slice, or a map. -/
inductive GoTy where
  | named (goStr kindStr : String)
  | struct_ (fields : List (String × String × GoTy))
  | slice (elem : GoTy)
  | mapTy (keyStr : String) (elem : GoTy)

/-- `reflect.TypeOf(model).String()` for a `GoTy`. -/
def tyString : GoTy → String
  | .named g _ => g
  | .struct_ _ => "struct \x7b...\x7d"
  | .slice e => "[]" ++ tyString e
  | .mapTy k e => "map[" ++ k ++ "]" ++ tyString e

/-- `reflect.ValueOf(model).Kind().String()` for a `GoTy`. -/
def kindString : GoTy → String
  | .named _ k => k
  | .struct_ _ => "struct"
  | .slice _ => "slice"
  | .mapTy _ _ => "map"

mutual

/-- Computable structural size of a `GoTy`, used as recursion fuel for the
walker (any fuel at least the size is adequate: every recursive step of
the walker strictly descends into the structure). -/
def GoTy.size : GoTy → Nat
  | .named _ _ => 1
  | .slice e => 1 + GoTy.size e
  | .mapTy _ e => 1 + GoTy.size e
  | .struct_ fields => 1 + GoTy.sizeFields fields

/-- Size of a struct field list. -/
def GoTy.sizeFields : List (String × String × GoTy) → Nat
  | [] => 1
  | (_, _, t) :: rest => 1 + GoTy.size t + GoTy.sizeFields rest

end

/-- Go `StructField.IsExported` (first character an uppercase letter;
ASCII model). -/
def isExported (name : String) : Bool :=
  match name.data with
  | [] => false
  | c :: _ => isUpperA c

/-- `schemaNest` of mdlschm.go (the `len > 0` guards only distinguish a
nil map from an empty one; the association-list model identifies them). -/
def schemaNest (blocks : List (String × Block)) (attrs : List (String × Attribute)) : Nest :=
  { schema := some { blocks := blocks, attributes := attrs } }

/-- `blockNest` + `addBlockOptions` of mdlschm.go (inlined): assemble a
block, set its nesting mode from the collection tag, copy descriptions,
build plan modifiers when the `pmods` tag is present, and always run
`validators` with the block marker type. -/
def blockNest (blocks : List (String × Block)) (attrs : List (String × Attribute))
    (slice : Bool) (tags : String) : Except String Nest :=
  match (if tagValue TagPlanModifiers tags ≠ "" then
      pMods (tagValue TagPlanModifiers tags) SpecialTypeBlock else .ok []) with
  | .error e => .error e
  | .ok pm =>
    match validators (tagValue TagValidators tags) SpecialTypeBlock slice tags with
    | .error e => .error e
    | .ok vs =>
      .ok { block := some (.mk
        (tagValue TagCollection tags = TagCollectionSet)
        attrs blocks
        (tagValue TagDescription tags)
        (tagValue TagMarkdownDescription tags)
        (tagValue TagDeprecationMessage tags)
        pm vs) }

mutual

/-- `rAttribute` of mdlschm.go: leaf first; otherwise a struct walks its
exported fields, a slice of structs recurses into its element type with
`fromSlice = true`, and everything else is a fatal error.  The extra
`fuel` argument makes the recursion structural; every recursive call
strictly decreases `sizeOf` of the walked value, so the `sizeOf`-sized
fuel supplied by `New` is never exhausted. -/
def rAttribute (fuel : Nat) (t : GoTy) (tags : String) (fromSlice : Bool) (level : Nat) :
    Except String Nest :=
  match fuel with
  | 0 => .error "recursion fuel exhausted"
  | fuel + 1 =>
    match leaf (tyString t) tags with
    | some l =>
      (match addAttrOptions l tags (tyString t) with
       | .error e => .error e
       | .ok a => .ok { attr := some a })
    | none =>
      match t with
      | .struct_ fields =>
        (match walkFields fuel fields level with
         | .error e => .error e
         | .ok (attrs, blocks) =>
           if level = 0 then .ok (schemaNest blocks attrs)
           else blockNest blocks attrs fromSlice tags)
      | .slice elem =>
        (match elem with
         | .struct_ fs => rAttribute fuel (.struct_ fs) tags true (level + 1)
         | e => .error ("unrecognized slice type: " ++ kindString e))
      | .mapTy _ _ => .error "only maps with string keys are supported"
      | t' => .error ("got unrecognized type: " ++ tyString t')

/-- The field loop of `rAttribute`'s struct case: skip unexported fields,
compute the wire name, recurse, and place the result into the attribute or
block map. -/
def walkFields (fuel : Nat) (fields : List (String × String × GoTy)) (level : Nat) :
    Except String (List (String × Attribute) × List (String × Block)) :=
  match fuel with
  | 0 => .error "recursion fuel exhausted"
  | fuel + 1 =>
    match fields with
    | [] => .ok ([], [])
    | (name, tag, fty) :: rest =>
      if isExported name then
        match rAttribute fuel fty tag false (level + 1) with
        | .error e => .error e
        | .ok n =>
          match walkFields fuel rest level with
          | .error e => .error e
          | .ok (attrs, blocks) =>
            let s := snakeCase name tag
            let attrs' := match n.attr with
              | some a => (s, a) :: attrs
              | none => attrs
            let blocks' := match n.block with
              | some b => (s, b) :: blocks
              | none => blocks
            .ok (attrs', blocks')
      else walkFields fuel rest level

end

/-- `schemaLevelOptions` of mdlschm.go: version (a base-10 integer or a
fatal error), deprecation, description, markdown description from the
root marker field's tags. -/
def schemaLevelOptions (schm : Schema) (tags : String) : Except String Schema :=
  match (if tagValue TagVersion tags ≠ "" then
      (match parseInt10 (tagValue TagVersion tags) with
       | .error e =>
         .error ("version must be an int, not " ++ tagValue TagVersion tags ++ ": " ++ e)
       | .ok vi => .ok (some vi) : Except String (Option ℤ))
    else .ok none) with
  | .error e => .error e
  | .ok viOpt =>
    let schm := match viOpt with
      | some vi => { schm with version := vi }
      | none => schm
    let schm := if tagValue TagDeprecationMessage tags ≠ "" then
        { schm with deprecationMessage := tagValue TagDeprecationMessage tags } else schm
    let schm := if tagValue TagDescription tags ≠ "" then
        { schm with description := tagValue TagDescription tags } else schm
    let schm := if tagValue TagMarkdownDescription tags ≠ "" then
        { schm with markdownDescription := tagValue TagMarkdownDescription tags } else schm
    .ok schm

/-- The root scan of `New` for the designated unnamed marker field
(unexported, named `_`, of struct kind). -/
def findMarkerTag : List (String × String × GoTy) → Option String
  | [] => none
  | (name, tag, fty) :: rest =>
    if ¬ isExported name ∧ name = "_" ∧ kindString fty = "struct" then some tag
    else findMarkerTag rest

/-- `New` of mdlschm.go: requires a struct, runs the walker at level 0,
and applies the marker field's schema-level options. -/
def New (model : GoTy) : Except String Schema :=
  if kindString model ≠ "struct" then
    .error ("internal error (expected struct, got " ++ kindString model ++ ")")
  else
    match rAttribute (GoTy.size model) model "" false 0 with
    | .error e => .error e
    | .ok n =>
      match n.schema with
      | none => .error "no schema achieved"
      | some schm =>
        match model with
        | .struct_ fields =>
          (match findMarkerTag fields with
           | some tag => schemaLevelOptions schm tag
           | none => .ok schm)
        | _ => .ok schm

/-! ## Spec-side definitions used to compare the code with the spec -/

/-- Modelled from the spec: the "strict true/false parse" the spec
prescribes for boolean default literals (only the exact words `true` and
`false` parse). -/
def strictParseBool (s : String) : Option Bool :=
  if s = "true" then some true
  else if s = "false" then some false
  else none

/-! ## Concrete inputs used by the claim theorems -/

/-- The C8 raw tag string (embedded spaces inside two quoted values). -/
def egTagsC8 : String :=
  "tfsdk:\"name\" md:\"This is a description with spaces\" valid:\"between( 3, 32 )\""

/-- A model with one string field whose `between` arguments carry spaces. -/
def egC3spacedModel : GoTy :=
  .struct_ [("Name", "tfsdk:\"name\" valid:\"between( 3, 32 )\"", .named "types.String" "struct")]

/-- The same model with the spaces removed. -/
def egC3plainModel : GoTy :=
  .struct_ [("Name", "tfsdk:\"name\" valid:\"between(3,32)\"", .named "types.String" "struct")]

/-- A model with a non-numeric `default` literal on an integer field. -/
def egC9defaultModel : GoTy :=
  .struct_ [("Name", "pmods:\"default(abc)\"", .named "types.Int64" "struct")]

end Mdlschm

namespace Mdlschm

/-! ## Claim theorems -/

/-- C7: `splitTagValues` splits on top-level commas only: the two given
inputs yield exactly the listed terms in their original order. -/
theorem splitTagValues_respects_parens :
    splitTagValues ("between(3,32),oneof(1,2)") = ["between(3,32)", "oneof(1,2)"] ∧
    splitTagValues ("fred,any(5),toast(1,8),between(3,32),arbitrary(5,2,3,1)") =
      ["fred", "any(5)", "toast(1,8)", "between(3,32)", "arbitrary(5,2,3,1)"] :=
  ⟨rfl, rfl⟩

/-- C8: `splitTags` never splits inside a double-quoted value: the given
raw tag string yields exactly 3 tokens, the `md` token keeping its spaces. -/
theorem splitTags_preserves_quoted_spaces :
    splitTags egTagsC8 =
      ["tfsdk:\"name\"", "md:\"This is a description with spaces\"",
       "valid:\"between( 3, 32 )\""] :=
  rfl

/-- C6: name normalization maps the four normative examples as specified,
and a non-empty `snake` override tag is returned verbatim. -/
theorem snakeCase_examples_and_override :
    snakeCase ("SuperSimpleCase") "" = "super_simple_case" ∧
    snakeCase ("VPCName") "" = "vpc_name" ∧
    snakeCase ("LittleVPCName") "" = "little_vpc_name" ∧
    snakeCase ("VPCEndpointIDs") "" = "vpc_endpoint_ids" ∧
    ∀ camel allTags, tagValue TagSnakeName allTags ≠ "" →
      snakeCase camel allTags = tagValue TagSnakeName allTags := by
  refine ⟨rfl, rfl, rfl, rfl, ?_⟩
  intro camel allTags h
  simp [snakeCase, h]

/-- Witness for C6: the override branch applied at a concrete tag. -/
theorem snakeCase_examples_and_override_witness :
    tagValue TagSnakeName ("snake:\"wire_name\"") ≠ "" ∧
    snakeCase ("AnyName") ("snake:\"wire_name\"") =
      tagValue TagSnakeName ("snake:\"wire_name\"") :=
  ⟨by decide, snakeCase_examples_and_override.2.2.2.2 _ _ (by decide)⟩

/-! ## Helper lemmas (shared, not claim theorems) -/

theorem leaf_flags {tyStr tags : String} {a : Attribute} (h : leaf tyStr tags = some a) :
    a.required = false ∧ a.optional = false ∧ a.computed = false ∧ a.sensitive = false := by
  unfold leaf at h
  rcases hl : leafTy tyStr tags with _ | t <;> rw [hl] at h
  · simp at h
  · simp only [Option.map_some'] at h
    injection h with h
    subst h
    exact ⟨rfl, rfl, rfl, rfl⟩

theorem addAttrFlags_spec (a : Attribute) (tags : String) :
    (addAttrFlags a tags).computed =
      (if tagValue TagComputed tags = TagTrue then true else a.computed) ∧
    (addAttrFlags a tags).required =
      (if tagValue TagRequired tags = TagTrue then true else a.required) ∧
    (addAttrFlags a tags).sensitive =
      (if tagValue TagSensitive tags = TagTrue then true else a.sensitive) ∧
    (addAttrFlags a tags).optional =
      (if tagValue TagComputed tags = "" ∧ tagValue TagOptional tags = "" ∧
          tagValue TagRequired tags = "" then true
       else if tagValue TagOptional tags = TagTrue then true else a.optional) := by
  unfold addAttrFlags
  set vc := tagValue TagComputed tags with hvc
  set vo := tagValue TagOptional tags with hvo
  set vr := tagValue TagRequired tags with hvr
  set vs := tagValue TagSensitive tags with hvs
  clear hvc hvo hvr hvs
  split_ifs <;> simp_all

theorem addAttrDocs_flags (a : Attribute) (tags : String) :
    (addAttrDocs a tags).computed = a.computed ∧
    (addAttrDocs a tags).required = a.required ∧
    (addAttrDocs a tags).sensitive = a.sensitive ∧
    (addAttrDocs a tags).optional = a.optional := by
  unfold addAttrDocs
  set v1 := tagValue TagDeprecationMessage tags with hv1
  set v2 := tagValue TagDescription tags with hv2
  set v3 := tagValue TagMarkdownDescription tags with hv3
  clear hv1 hv2 hv3
  split_ifs <;> simp_all

theorem addAttrRules_flags {a : Attribute} {tags attrType : String} {r : Attribute}
    (h : addAttrRules a tags attrType = .ok r) :
    r.computed = a.computed ∧ r.required = a.required ∧ r.sensitive = a.sensitive ∧
    r.optional = a.optional := by
  unfold addAttrRules at h
  by_cases h4 : tagValue TagPlanModifiers tags ≠ ""
  · simp only [if_pos h4] at h
    rcases hpm : pMods (tagValue TagPlanModifiers tags) attrType with e | pmv
    · simp only [hpm] at h
      exact Except.noConfusion h
    · simp only [hpm] at h
      by_cases h5 : tagValue TagValidators tags ≠ ""
      · simp only [if_pos h5] at h
        rcases hvl : validators (tagValue TagValidators tags) attrType false tags with e | vs
        · simp only [hvl] at h
          exact Except.noConfusion h
        · simp only [hvl] at h
          injection h with h
          subst h
          exact ⟨rfl, rfl, rfl, rfl⟩
      · simp only [if_neg h5] at h
        injection h with h
        subst h
        exact ⟨rfl, rfl, rfl, rfl⟩
  · simp only [if_neg h4] at h
    by_cases h5 : tagValue TagValidators tags ≠ ""
    · simp only [if_pos h5] at h
      rcases hvl : validators (tagValue TagValidators tags) attrType false tags with e | vs
      · simp only [hvl] at h
        exact Except.noConfusion h
      · simp only [hvl] at h
        injection h with h
        subst h
        exact ⟨rfl, rfl, rfl, rfl⟩
    · simp only [if_neg h5] at h
      injection h with h
      subst h
      exact ⟨rfl, rfl, rfl, rfl⟩

theorem oneOfValidator_block (v tags : String) :
    oneOfValidator v SpecialTypeBlock tags = .ok none := rfl

theorem noneOfValidator_block (v tags : String) :
    noneOfValidator v SpecialTypeBlock tags = .ok none := rfl

/-- C5: for a supported scalar field whose tags carry none of the
computed/optional/required keys (so all three `tagValue`s are empty), the
compiled attribute is optional and neither computed nor required. -/
theorem scalar_defaults_to_optional (tyStr tags : String) (a r : Attribute)
    (hleaf : leaf tyStr tags = some a)
    (hc : tagValue TagComputed tags = "")
    (ho : tagValue TagOptional tags = "")
    (hr : tagValue TagRequired tags = "")
    (hadd : addAttrOptions a tags tyStr = .ok r) :
    r.optional = true ∧ r.computed = false ∧ r.required = false := by
  obtain ⟨l1, l2, l3, l4⟩ := leaf_flags hleaf
  obtain ⟨f1, f2, f3, f4⟩ := addAttrFlags_spec a tags
  unfold addAttrOptions at hadd
  obtain ⟨t1, t2, t3, t4⟩ := addAttrRules_flags hadd
  obtain ⟨d1, d2, d3, d4⟩ := addAttrDocs_flags (addAttrFlags a tags) tags
  refine ⟨?_, ?_, ?_⟩
  · rw [t4, d4, f4, hc, ho, hr]
    simp
  · rw [t1, d1, f1, hc]
    simpa [TagTrue] using l3
  · rw [t2, d2, f2, hr]
    simpa [TagTrue] using l1

/-- Witness for C5 at a concrete field and tag string. -/
theorem scalar_defaults_to_optional_witness :
    ({ type := .prim .str, optional := true, description := "hi" } : Attribute).optional = true ∧
    ({ type := .prim .str, optional := true, description := "hi" } : Attribute).computed = false ∧
    ({ type := .prim .str, optional := true, description := "hi" } : Attribute).required = false :=
  scalar_defaults_to_optional ("types.String") ("desc:\"hi\"")
    { type := .prim .str } _ rfl rfl rfl rfl rfl

/-- C10: each requiredness/sensitivity flag is set exactly when the
corresponding tag value is literally `true`, optional additionally when
none of the three requiredness keys has a value; the optional-by-default
rule is suppressed by any non-empty value, so `required:"false"` compiles
to an attribute with all three flags false. -/
theorem attr_flags_exact_true_and_default_suppressed :
    (∀ tyStr tags a r, leaf tyStr tags = some a → addAttrOptions a tags tyStr = .ok r →
      ((r.computed = true ↔ tagValue TagComputed tags = TagTrue) ∧
       (r.required = true ↔ tagValue TagRequired tags = TagTrue) ∧
       (r.sensitive = true ↔ tagValue TagSensitive tags = TagTrue) ∧
       (r.optional = true ↔ (tagValue TagOptional tags = TagTrue ∨
         (tagValue TagComputed tags = "" ∧ tagValue TagOptional tags = "" ∧
          tagValue TagRequired tags = ""))))) ∧
    addAttrOptions { type := .prim .str } ("required:\"false\"") ("types.String") =
      .ok { type := .prim .str } := by
  constructor
  · intro tyStr tags a r hleaf hadd
    obtain ⟨l1, l2, l3, l4⟩ := leaf_flags hleaf
    obtain ⟨f1, f2, f3, f4⟩ := addAttrFlags_spec a tags
    unfold addAttrOptions at hadd
    obtain ⟨t1, t2, t3, t4⟩ := addAttrRules_flags hadd
    obtain ⟨d1, d2, d3, d4⟩ := addAttrDocs_flags (addAttrFlags a tags) tags
    refine ⟨?_, ?_, ?_, ?_⟩
    · rw [t1, d1, f1, l3]
      by_cases hcond : tagValue TagComputed tags = TagTrue <;> simp [hcond]
    · rw [t2, d2, f2, l1]
      by_cases hcond : tagValue TagRequired tags = TagTrue <;> simp [hcond]
    · rw [t3, d3, f3, l4]
      by_cases hcond : tagValue TagSensitive tags = TagTrue <;> simp [hcond]
    · rw [t4, d4, f4, l2]
      by_cases hd : tagValue TagComputed tags = "" ∧ tagValue TagOptional tags = "" ∧
          tagValue TagRequired tags = "" <;>
        by_cases hcond : tagValue TagOptional tags = TagTrue <;> simp [hd, hcond]
  · rfl

/-- Witness for C10: a concrete `computed:"true"` field, read back through
the flag characterization. -/
theorem attr_flags_exact_true_witness :
    tagValue TagComputed ("computed:\"true\"") = TagTrue :=
  ((attr_flags_exact_true_and_default_suppressed.1 ("types.String") ("computed:\"true\"")
      { type := .prim .str } { type := .prim .str, computed := true } rfl rfl).1).mp rfl

/-- C2: with no `between` term, a block's validators are exactly the
implicit size inference: min is 1 iff the field is tagged
`required:"true"` (else 0), the Set family is chosen iff
`collection:"set"`; a block not derived from a slice gets
`SizeBetween(min, 1)`, a slice-derived block gets `SizeAtLeast(min)` when
min is positive and no size validator when min is 0. -/
theorem block_implicit_size (tagV tags : String) (fromSlice : Bool)
    (h : hasTagArg TagValidatorBetween tagV = false) :
    validators tagV SpecialTypeBlock fromSlice tags = .ok
      (if tagValue TagCollection tags = TagCollectionSet then
        (if fromSlice then
          (if tagValue TagRequired tags = TagTrue then [ValidatorSpec.setSizeAtLeast 1] else [])
         else [ValidatorSpec.setSizeBetween
            (if tagValue TagRequired tags = TagTrue then 1 else 0) 1])
       else
        (if fromSlice then
          (if tagValue TagRequired tags = TagTrue then [ValidatorSpec.listSizeAtLeast 1] else [])
         else [ValidatorSpec.listSizeBetween
            (if tagValue TagRequired tags = TagTrue then 1 else 0) 1])) := by
  unfold validators
  rw [h, oneOfValidator_block, noneOfValidator_block]
  simp only [Bool.false_eq_true, if_false, ite_self]
  split_ifs <;> simp_all

/-- Witness for C2: a required set-collection block derived from a slice
gets exactly `SizeAtLeast(1)` in the Set family. -/
theorem block_implicit_size_witness :
    hasTagArg TagValidatorBetween "" = false ∧
    validators "" SpecialTypeBlock true ("required:\"true\" collection:\"set\"") =
      .ok [ValidatorSpec.setSizeAtLeast 1] :=
  ⟨rfl, (block_implicit_size ("") ("required:\"true\" collection:\"set\"") true rfl).trans rfl⟩

/-- Counterexample for C1: the tag `default(game),replace` compiles to
`[RequiresReplace, DefaultValue(game)]`, not to the document-order list
`[DefaultValue(game), RequiresReplace]` the claim requires. -/
theorem pMods_document_order_counterexample :
    pMods ("default(game),replace") ("types.String") =
      .ok [ModifierSpec.requiresReplace, ModifierSpec.defaultValue (GoVal.str "game")] ∧
    pMods ("default(game),replace") ("types.String") ≠
      .ok [ModifierSpec.defaultValue (GoVal.str "game"), ModifierSpec.requiresReplace] := by
  refine ⟨rfl, ?_⟩
  intro hcon
  rw [show pMods ("default(game),replace") ("types.String") =
      .ok [ModifierSpec.requiresReplace, ModifierSpec.defaultValue (GoVal.str "game")]
    from rfl] at hcon
  simp at hcon

/-- C1 (amended): one modifier per recognized replace/usfu term for every
field, in the fixed order replace, usfu, default — never tag document
order — and a DefaultValue for a recognized `default(...)` term exactly
when the field's reflect type string is one of the scalar cases of the
pMods switch; for every other type string (blocks included) a default
term appends nothing.  The six conjuncts characterize `pMods` completely:
one per scalar type group of the switch, and one for all remaining type
strings. -/
theorem pMods_fixed_modifier_order :
    (∀ tagV attrType, (attrType = "types.String" ∨ attrType = "string") →
      pMods tagV attrType = .ok (pModsPre tagV ++
        (if hasTagArg TagPlanModifierDefault tagV then
          [ModifierSpec.defaultValue (GoVal.str (tagArgs TagPlanModifierDefault tagV))]
         else []))) ∧
    (∀ tagV attrType, (attrType = "types.Bool" ∨ attrType = "bool") →
      pMods tagV attrType =
        (if hasTagArg TagPlanModifierDefault tagV then
          match parseBool (tagArgs TagPlanModifierDefault tagV) with
          | .error e => .error ("default value (" ++ tagArgs TagPlanModifierDefault tagV ++
              ") is not a bool: " ++ e)
          | .ok b => .ok (pModsPre tagV ++ [ModifierSpec.defaultValue (GoVal.bool b)])
         else .ok (pModsPre tagV))) ∧
    (∀ tagV attrType, (attrType = "types.Float64" ∨ attrType = "float" ∨ attrType = "float64") →
      pMods tagV attrType =
        (if hasTagArg TagPlanModifierDefault tagV then
          match parseFloatQ (tagArgs TagPlanModifierDefault tagV) with
          | .error e => .error ("default value (" ++ tagArgs TagPlanModifierDefault tagV ++
              ") is not a number: " ++ e)
          | .ok f => .ok (pModsPre tagV ++ [ModifierSpec.defaultValue (GoVal.float64 f)])
         else .ok (pModsPre tagV))) ∧
    (∀ tagV attrType, (attrType = "types.Int64" ∨ attrType = "int64") →
      pMods tagV attrType =
        (if hasTagArg TagPlanModifierDefault tagV then
          match parseInt10 (tagArgs TagPlanModifierDefault tagV) with
          | .error e => .error ("default value (" ++ tagArgs TagPlanModifierDefault tagV ++
              ") is not a number: " ++ e)
          | .ok i => .ok (pModsPre tagV ++ [ModifierSpec.defaultValue (GoVal.int64 i)])
         else .ok (pModsPre tagV))) ∧
    (∀ tagV attrType, (attrType = "types.Number" ∨ attrType = "int") →
      pMods tagV attrType =
        (if hasTagArg TagPlanModifierDefault tagV then
          match parseFloatQ (tagArgs TagPlanModifierDefault tagV) with
          | .error e => .error ("default value (" ++ tagArgs TagPlanModifierDefault tagV ++
              ") is not a number: " ++ e)
          | .ok f => .ok (pModsPre tagV ++ [ModifierSpec.defaultValue (GoVal.number f)])
         else .ok (pModsPre tagV))) ∧
    (∀ tagV attrType,
      ¬(attrType = "types.Bool" ∨ attrType = "bool") →
      ¬(attrType = "types.Float64" ∨ attrType = "float" ∨ attrType = "float64") →
      ¬(attrType = "types.Int64" ∨ attrType = "int64") →
      ¬(attrType = "types.Number" ∨ attrType = "int") →
      ¬(attrType = "types.String" ∨ attrType = "string") →
      pMods tagV attrType = .ok (pModsPre tagV)) := by
  refine ⟨?_, ?_, ?_, ?_, ?_, ?_⟩
  · intro tagV attrType hty
    rcases hty with h | h <;> subst h <;>
      (unfold pMods; cases hd : hasTagArg TagPlanModifierDefault tagV <;>
        first
          | rfl
          | simp [pModsPre])
  · intro tagV attrType hty
    rcases hty with h | h <;> subst h <;>
      (unfold pMods; cases hd : hasTagArg TagPlanModifierDefault tagV <;> rfl)
  · intro tagV attrType hty
    rcases hty with h | h | h <;> subst h <;>
      (unfold pMods; cases hd : hasTagArg TagPlanModifierDefault tagV <;> rfl)
  · intro tagV attrType hty
    rcases hty with h | h <;> subst h <;>
      (unfold pMods; cases hd : hasTagArg TagPlanModifierDefault tagV <;> rfl)
  · intro tagV attrType hty
    rcases hty with h | h <;> subst h <;>
      (unfold pMods; cases hd : hasTagArg TagPlanModifierDefault tagV <;> rfl)
  · intro tagV attrType h1 h2 h3 h4 h5
    unfold pMods
    cases hd : hasTagArg TagPlanModifierDefault tagV
    · rfl
    · simp [h1, h2, h3, h4, h5, pModsPre]

/-- Witness for C1 (amended): the counterexample tag on a string field
gives the fixed-order pair, and the same terms on a block give a single
modifier (the block type has no default case). -/
theorem pMods_fixed_modifier_order_witness :
    pMods ("default(game),replace") ("types.String") =
      .ok [ModifierSpec.requiresReplace, ModifierSpec.defaultValue (GoVal.str "game")] ∧
    pMods ("replace,default(game)") SpecialTypeBlock = .ok [ModifierSpec.requiresReplace] :=
  ⟨(pMods_fixed_modifier_order.1 ("default(game),replace") ("types.String") (Or.inl rfl)).trans rfl,
   (pMods_fixed_modifier_order.2.2.2.2.2 ("replace,default(game)") SpecialTypeBlock
      (by decide) (by decide) (by decide) (by decide) (by decide)).trans rfl⟩

/-- Counterexample for C4: `default(t)` on a boolean field parses (Go
`ParseBool` accepts `t`), which a strict true/false parse would reject;
and `default(12)` on a plain Go `int` field is emitted as an
arbitrary-precision Number, not as an Int64 value. -/
theorem pMods_default_typing_counterexample :
    strictParseBool ("t") = none ∧
    pMods ("default(t)") ("types.Bool") = .ok [ModifierSpec.defaultValue (GoVal.bool true)] ∧
    pMods ("default(12)") ("int") = .ok [ModifierSpec.defaultValue (GoVal.number 12)] ∧
    pMods ("default(12)") ("int") ≠ .ok [ModifierSpec.defaultValue (GoVal.int64 12)] := by
  refine ⟨rfl, rfl, rfl, ?_⟩
  intro hcon
  rw [show pMods ("default(12)") ("int") =
      .ok [ModifierSpec.defaultValue (GoVal.number 12)] from rfl] at hcon
  simp at hcon

/-- C4 (amended): the default literal of a lone `default(...)` term is
parsed against the pMods type switch: Go `ParseBool` for boolean fields,
decimal float parse for 64-bit float fields, base-10 integer parse for
`types.Int64`/`int64` fields, while `types.Number` AND plain Go `int` get
the decimal float parse emitted as a Number value, and string fields take
the literal verbatim. -/
theorem pMods_default_parsers (tagV dv : String)
    (hd : hasTagArg TagPlanModifierDefault tagV = true)
    (hdv : tagArgs TagPlanModifierDefault tagV = dv)
    (hrep : hasTagArg TagPlanModifierReplace tagV = false)
    (husfu : hasTagArg TagPlanModifierUSFU tagV = false) :
    (pMods tagV ("types.Bool") = match parseBool dv with
       | .error e => .error ("default value (" ++ dv ++ ") is not a bool: " ++ e)
       | .ok b => .ok [ModifierSpec.defaultValue (GoVal.bool b)]) ∧
    (pMods tagV ("types.Float64") = match parseFloatQ dv with
       | .error e => .error ("default value (" ++ dv ++ ") is not a number: " ++ e)
       | .ok f => .ok [ModifierSpec.defaultValue (GoVal.float64 f)]) ∧
    (pMods tagV ("types.Int64") = match parseInt10 dv with
       | .error e => .error ("default value (" ++ dv ++ ") is not a number: " ++ e)
       | .ok i => .ok [ModifierSpec.defaultValue (GoVal.int64 i)]) ∧
    (pMods tagV ("int") = match parseFloatQ dv with
       | .error e => .error ("default value (" ++ dv ++ ") is not a number: " ++ e)
       | .ok f => .ok [ModifierSpec.defaultValue (GoVal.number f)]) ∧
    (pMods tagV ("types.String") = .ok [ModifierSpec.defaultValue (GoVal.str dv)]) := by
  subst hdv
  unfold pMods
  rw [hd, hrep, husfu]
  exact ⟨rfl, rfl, rfl, rfl, rfl⟩

/-- Witness for C4 (amended) at the literal `7`. -/
theorem pMods_default_parsers_witness :
    pMods ("default(7)") ("types.Int64") = .ok [ModifierSpec.defaultValue (GoVal.int64 7)] ∧
    pMods ("default(7)") ("int") = .ok [ModifierSpec.defaultValue (GoVal.number 7)] :=
  ⟨(pMods_default_parsers ("default(7)") ("7") rfl rfl rfl rfl).2.2.1.trans rfl,
   (pMods_default_parsers ("default(7)") ("7") rfl rfl rfl rfl).2.2.2.1.trans rfl⟩

/-- Counterexample for C3: a `between( 3, 32 )` term with spaces around
the numeric arguments aborts compilation with a ParseFloat syntax error
(the code does not trim before parsing). -/
theorem between_whitespace_counterexample :
    New egC3spacedModel =
      .error ("between requires 2 numeric args: strconv.ParseFloat: parsing \" 3\": invalid syntax") :=
  rfl

/-- C3 (amended): spaces inside a `between` argument list are NOT
tolerated — the spaced term is a fatal parse error, while the same term
without spaces compiles to the expected length-range validator. -/
theorem between_whitespace_fatal :
    New egC3spacedModel =
      .error ("between requires 2 numeric args: strconv.ParseFloat: parsing \" 3\": invalid syntax") ∧
    New egC3plainModel = .ok { attributes :=
      [("name", { type := .prim .str, optional := true,
                  validators := [.lengthBetween 3 32] })] } :=
  ⟨rfl, rfl⟩

/-- C9: model-definition defects are fatal: an unsupported slice element
type aborts the walker, a `between` with an argument count other than 2
aborts the validator builder, and a non-numeric default literal on an
integer field aborts the whole compilation; in every case the result is
an error carrying a descriptive message and no schema. -/
theorem model_defects_fatal :
    (∀ fuel g k tags fromSlice level,
      leaf (tyString (GoTy.slice (GoTy.named g k))) tags = none →
      rAttribute (fuel + 1) (GoTy.slice (GoTy.named g k)) tags fromSlice level =
        .error ("unrecognized slice type: " ++ k)) ∧
    (∀ bv attrTy tags,
      (((splitOnChar ',' (tagArgs TagValidatorBetween bv).data).map String.mk).length ≠ 2) →
      betweenValidator bv attrTy tags =
        .error (TagValidatorBetween ++ " requires 2 numeric args, got " ++
          toString (((splitOnChar ',' (tagArgs TagValidatorBetween bv).data).map String.mk).length))) ∧
    New egC9defaultModel =
      .error ("default value (abc) is not a number: strconv.ParseInt: parsing \"abc\": invalid syntax") := by
  refine ⟨?_, ?_, rfl⟩
  · intro fuel g k tags fromSlice level hleaf
    rw [rAttribute, hleaf]
    · rfl
    · intro fs hcon
      exact GoTy.noConfusion hcon
  · intro bv attrTy tags hlen
    unfold betweenValidator
    rcases hargs : (splitOnChar ',' (tagArgs TagValidatorBetween bv).data).map String.mk with
        _ | ⟨a0, _ | ⟨a1, _ | ⟨a2, rest⟩⟩⟩
    · simp [hargs]
    · simp [hargs]
    · rw [hargs] at hlen
      simp at hlen
    · simp [hargs]

/-- Witness for C9: the first two defect classes at concrete inputs. -/
theorem model_defects_fatal_witness :
    rAttribute 5 (GoTy.slice (GoTy.named ("*bool") ("ptr"))) "" false 1 =
      .error ("unrecognized slice type: ptr") ∧
    betweenValidator ("between(3)") ("types.String") "" =
      .error ("between requires 2 numeric args, got 1") :=
  ⟨model_defects_fatal.1 4 ("*bool") ("ptr") "" false 1 rfl,
   (model_defects_fatal.2.1 ("between(3)") ("types.String") "" (by decide)).trans rfl⟩

end Mdlschm
